import Mathlib

/-!
Shallow embedding of `src/App.jsx` (the stateful logic of the `App` component):
the content loader (`load`, lines 90-124) and the lead submission flow
(`submitLead`, lines 126-142), together with the page state cells declared
by the `useState` calls (lines 82-86).

Network I/O is modelled by explicit outcomes: a `fetch` either rejects at
the network level with an error message, or resolves to an `HttpResponse`
carrying a status code and a body; calling `.json()` on a response either
yields the parsed value or throws the message of the parse failure.  The status
code enters `res.ok` exactly as the Fetch API defines it (200..299).
State-setting calls (`setCompany`, `setLead`, ...) become functional updates
of an explicit `AppState`; `submitLead` is additionally given as the fold of
an explicit list of `Commit`s so that the order of its state-setting calls
is visible to the theorems.
-/

/-- A JSON value, used for the POST response body (whose parse result the
source discards). -/
inductive Json : Type where
  | null : Json
  | bool (b : Bool) : Json
  | str (s : String) : Json
  | num (n : Int) : Json
  | arr (elems : List Json) : Json
  | obj (fields : List (String × Json)) : Json

/-- The body of an HTTP response, as seen through `.json()`: either it parses
to a value of the expected shape, or parsing fails with a message. -/
inductive JsonBody (α : Type) : Type where
  | parses (v : α) : JsonBody α
  | malformed (errMsg : String) : JsonBody α
deriving Repr, DecidableEq

/-- A resolved HTTP response: a status code and a body. -/
structure HttpResponse (α : Type) : Type where
  status : Nat
  body : JsonBody α
deriving Repr, DecidableEq

/-- `res.ok` of the Fetch API: status in the inclusive range 200..299. -/
def HttpResponse.ok {α : Type} (r : HttpResponse α) : Bool :=
  decide (200 ≤ r.status) && decide (r.status < 300)

/-- `await res.json()`: the parsed value, or a thrown parse-failure message. -/
def HttpResponse.json {α : Type} (r : HttpResponse α) : Except String α :=
  match r.body with
  | .parses v => .ok v
  | .malformed m => .error m

/-- The outcome of one `fetch(...)` call: a network-level rejection, or a
resolved response (of any status). -/
inductive FetchOutcome (α : Type) : Type where
  | reject (errMsg : String) : FetchOutcome α
  | resolve (r : HttpResponse α) : FetchOutcome α
deriving Repr, DecidableEq

/-- Whether this fetch outcome is a network-level rejection or resolves to a
body that fails to parse as JSON (the two conditions under which
the `try` block of the loader throws for this fetch). -/
def FetchOutcome.failsJson {α : Type} : FetchOutcome α → Bool
  | .reject _ => true
  | .resolve r =>
    match r.body with
    | .malformed _ => true
    | .parses _ => false

/-- One entry of the company `stats` array (`App.jsx` lines 106-110). -/
structure Stat : Type where
  label : String
  value : String
deriving Repr, DecidableEq

/-- The CompanyProfile record held in the `company` state cell. -/
structure CompanyProfile : Type where
  name : String
  headline : String
  subheadline : String
  stats : List Stat
  awards : List String
deriving Repr, DecidableEq

/-- One ServiceEntry of the `services` state cell. -/
structure ServiceEntry : Type where
  title : String
  desc : String
  bullets : List String
deriving Repr, DecidableEq

/-- The LeadRecord held in the `lead` state cell (`App.jsx` line 85). -/
structure LeadRecord : Type where
  name : String
  email : String
  company : String
  message : String
  country : String
deriving Repr, DecidableEq

/-- The `state` tag of the `leadStatus` cell: `idle`, `submitting`,
`success` or `error`. -/
inductive SubmState : Type where
  | idle : SubmState
  | submitting : SubmState
  | success : SubmState
  | error : SubmState
deriving Repr, DecidableEq

/-- The `leadStatus` state cell: `{ state, message }` (`App.jsx` line 86). -/
structure LeadStatus : Type where
  state : SubmState
  message : String
deriving Repr, DecidableEq

/-- All five state cells of the `App` component (`App.jsx` lines 82-86). -/
structure AppState : Type where
  company : Option CompanyProfile
  services : List ServiceEntry
  loading : Bool
  lead : LeadRecord
  leadStatus : LeadStatus
deriving Repr, DecidableEq

/-- The all-empty LeadRecord, the initial value and the reset value
(`App.jsx` lines 85 and 138). -/
def emptyLead : LeadRecord :=
  { name := "", email := "", company := "", message := "", country := "" }

/-- The component state right after initialization: `useState(null)`,
`useState([])`, `useState(true)`, the empty lead, the idle status with empty message
(`App.jsx` lines 82-86). -/
def initState : AppState :=
  { company := none
    services := []
    loading := true
    lead := emptyLead
    leadStatus := { state := .idle, message := "" } }

/-- The hardcoded fallback CompanyProfile committed in the `catch` block of
the loader (`App.jsx` lines 102-112). -/
def fallbackCompany : CompanyProfile :=
  { name := "SPEED OF MASTRY"
    headline := "The leading technology partner across the Gulf and Saudi Arabia"
    subheadline := "From strategy to delivery, we engineer scalable platforms, cloud-native systems, and AI solutions that power regional leaders."
    stats :=
      [ { label := "Projects Delivered", value := "+120" }
      , { label := "Enterprise Uptime", value := "99.99%" }
      , { label := "Avg. Launch Time", value := "8 weeks" } ]
    awards :=
      [ "Top Technology Innovator – KSA"
      , "Best Cloud Modernization Partner – GCC" ] }

/-- The hardcoded fallback ServiceEntry list committed in the `catch` block of
the loader (`App.jsx` lines 113-118). -/
def fallbackServices : List ServiceEntry :=
  [ { title := "Custom Software"
    , desc := "High-performance web and mobile applications tailored to your business."
    , bullets := ["Product engineering", "Microservices", "API platforms"] }
  , { title := "Cloud & DevOps"
    , desc := "Secure, scalable cloud on AWS, Azure, and GCP with modern DevOps."
    , bullets := ["Kubernetes", "CI/CD", "Observability"] }
  , { title := "AI & Data"
    , desc := "Applied AI, analytics, and data platforms for real impact."
    , bullets := ["LLM apps", "MLOps", "Data lakes"] }
  , { title := "Digital Transformation"
    , desc := "From legacy to modern, accelerate delivery across the enterprise."
    , bullets := ["Cloud migration", "ERP integrations", "Governance"] } ]

/-- `await Promise.all([fetch(...), fetch(...)])` (`App.jsx` lines 93-96):
both responses when both fetches resolve, otherwise the rejection (its
message is never inspected downstream, the catch binds `e` unused). -/
def promiseAll2 {α β : Type} :
    FetchOutcome α → FetchOutcome β → Except String (HttpResponse α × HttpResponse β)
  | .reject m, _ => .error m
  | .resolve _, .reject m => .error m
  | .resolve a, .resolve b => .ok (a, b)

/-- The `try` block of the loader (`App.jsx` lines 92-98): join the two
fetches, then parse the company body, then the services body.  The status
codes of the two responses are never consulted. -/
def loadTry (c : FetchOutcome CompanyProfile) (s : FetchOutcome (List ServiceEntry)) :
    Except String (CompanyProfile × List ServiceEntry) :=
  match promiseAll2 c s with
  | .error m => .error m
  | .ok (cRes, sRes) =>
    match cRes.json with
    | .error m => .error m
    | .ok cJ =>
      match sRes.json with
      | .error m => .error m
      | .ok sJ => .ok (cJ, sJ)

/-- The whole `load` function (`App.jsx` lines 91-122): on success of the
`try` block commit both parsed bodies (`setCompany(c); setServices(s)`); on
any throw commit the fallback pair in the `catch` block; in either case the
`finally` block sets `loading` to `false`. -/
def load (c : FetchOutcome CompanyProfile) (s : FetchOutcome (List ServiceEntry))
    (st : AppState) : AppState :=
  let st' :=
    match loadTry c s with
    | .ok (cJ, sJ) => { st with company := some cJ, services := sJ }
    | .error _ => { st with company := some fallbackCompany, services := fallbackServices }
  { st' with loading := false }

/-- One state-setting call made by `submitLead`. -/
inductive Commit : Type where
  | setLeadStatus (ls : LeadStatus) : Commit
  | setLead (l : LeadRecord) : Commit
deriving Repr, DecidableEq

/-- Apply one state-setting call to the component state. -/
def applyCommit (st : AppState) : Commit → AppState
  | .setLeadStatus ls => { st with leadStatus := ls }
  | .setLead l => { st with lead := l }

/-- The sequence of state-setting calls `submitLead` makes for a given POST
outcome, in source order (`App.jsx` lines 126-142): first
`setLeadStatus` with the submitting status and empty message before the fetch; then,
depending on the outcome: a network rejection or the `throw` on `!res.ok`
or a `res.json()` parse failure lands in the `catch`, which does
`setLeadStatus` with the error status and the message of the thrown error; a success does
`setLeadStatus` with the success status then `setLead` with the empty record. -/
def submitCommits (res : FetchOutcome Json) : List Commit :=
  Commit.setLeadStatus { state := .submitting, message := "" } ::
    match res with
    | .reject m => [Commit.setLeadStatus { state := .error, message := m }]
    | .resolve r =>
      if !r.ok then
        [Commit.setLeadStatus
          { state := .error, message := "Failed to submit. Please try again." }]
      else
        match r.json with
        | .error m => [Commit.setLeadStatus { state := .error, message := m }]
        | .ok _ =>
          [ Commit.setLeadStatus
              { state := .success, message := "Thank you! We will reach out shortly." }
          , Commit.setLead emptyLead ]

/-- The full effect of one `submitLead` invocation on the component state:
its state-setting calls applied in order. -/
def submitLead (res : FetchOutcome Json) (st : AppState) : AppState :=
  (submitCommits res).foldl applyCommit st

/-- One page-session event that touches the component state after
initialization: the single load attempt resolving, one lead submission
completing, or the user editing a form field (`setLead` in an `onChange`
handler). -/
inductive Event : Type where
  | loadDone (c : FetchOutcome CompanyProfile) (s : FetchOutcome (List ServiceEntry)) : Event
  | submitDone (res : FetchOutcome Json) : Event
  | edit (l : LeadRecord) : Event

/-- Whether the event is the load attempt resolving. -/
def Event.isLoadDone : Event → Bool
  | .loadDone _ _ => true
  | _ => false

/-- Apply one session event to the component state. -/
def stepEvent (st : AppState) : Event → AppState
  | .loadDone c s => load c s st
  | .submitDone res => submitLead res st
  | .edit l => { st with lead := l }

/-- Run a page session: the initial state followed by a sequence of events. -/
def runSession (events : List Event) : AppState :=
  events.foldl stepEvent initState

/-! ## Helper lemmas about the content loader -/

/-- When both fetches resolve and both bodies parse, the `try` block of the
loader returns the two parsed bodies, whatever the status codes are. -/
theorem loadTry_resolve_parses (cR : HttpResponse CompanyProfile)
    (sR : HttpResponse (List ServiceEntry)) (cJ : CompanyProfile)
    (sJ : List ServiceEntry) (hc : cR.body = .parses cJ) (hs : sR.body = .parses sJ) :
    loadTry (.resolve cR) (.resolve sR) = Except.ok (cJ, sJ) := by
  simp [loadTry, promiseAll2, HttpResponse.json, hc, hs]

/-- The `try` block of the loader throws exactly when one of the two fetches
rejects at the network level or resolves to a body that fails to parse. -/
theorem loadTry_error_iff (c : FetchOutcome CompanyProfile)
    (s : FetchOutcome (List ServiceEntry)) :
    (∃ m, loadTry c s = Except.error m) ↔
      (c.failsJson = true ∨ s.failsJson = true) := by
  cases c with
  | reject m => simp [loadTry, promiseAll2, FetchOutcome.failsJson]
  | resolve cR =>
    cases s with
    | reject m => simp [loadTry, promiseAll2, FetchOutcome.failsJson]
    | resolve sR =>
      cases hc : cR.body with
      | parses cJ =>
        cases hs : sR.body with
        | parses sJ =>
          simp [loadTry, promiseAll2, HttpResponse.json, hc, hs,
            FetchOutcome.failsJson]
        | malformed m =>
          simp [loadTry, promiseAll2, HttpResponse.json, hc, hs,
            FetchOutcome.failsJson]
      | malformed m =>
        simp [loadTry, promiseAll2, HttpResponse.json, hc,
          FetchOutcome.failsJson]

/-- When the `try` block throws, `load` commits the fallback pair. -/
theorem load_of_loadTry_error (c : FetchOutcome CompanyProfile)
    (s : FetchOutcome (List ServiceEntry)) (st : AppState) (m : String)
    (h : loadTry c s = Except.error m) :
    (load c s st).company = some fallbackCompany ∧
      (load c s st).services = fallbackServices := by
  simp [load, h]

/-- When the `try` block succeeds, `load` commits the two parsed bodies. -/
theorem load_of_loadTry_ok (c : FetchOutcome CompanyProfile)
    (s : FetchOutcome (List ServiceEntry)) (st : AppState)
    (cJ : CompanyProfile) (sJ : List ServiceEntry)
    (h : loadTry c s = Except.ok (cJ, sJ)) :
    (load c s st).company = some cJ ∧ (load c s st).services = sJ := by
  simp [load, h]

/-- C1: every run of the content load commits either both remote parsed
bodies or both fallback constants; no final state mixes a remote company
with fallback services or the reverse (in particular not when the company
body parses and the services body does not). -/
theorem load_commits_both_remote_or_both_fallback
    (c : FetchOutcome CompanyProfile) (s : FetchOutcome (List ServiceEntry))
    (st : AppState) :
    (∃ cJ sJ, loadTry c s = Except.ok (cJ, sJ) ∧
      (load c s st).company = some cJ ∧ (load c s st).services = sJ) ∨
    ((load c s st).company = some fallbackCompany ∧
      (load c s st).services = fallbackServices) := by
  cases h : loadTry c s with
  | error m => exact Or.inr (load_of_loadTry_error c s st m h)
  | ok p =>
    obtain ⟨cJ, sJ⟩ := p
    exact Or.inl ⟨cJ, sJ, rfl, load_of_loadTry_ok c s st cJ sJ h⟩

/-- C4: the loader commits the fallback dataset exactly when a network-level
rejection or a JSON-parse failure hits one of the two GETs; the HTTP status
codes are never checked, so two resolved responses whose bodies parse are
committed as real content whatever their statuses. -/
theorem load_fallback_iff_reject_or_parse_failure
    (c : FetchOutcome CompanyProfile) (s : FetchOutcome (List ServiceEntry))
    (st : AppState) :
    ((∃ m, loadTry c s = Except.error m) ↔
      (c.failsJson = true ∨ s.failsJson = true)) ∧
    (∀ m, loadTry c s = Except.error m →
      (load c s st).company = some fallbackCompany ∧
        (load c s st).services = fallbackServices) ∧
    (∀ (cR : HttpResponse CompanyProfile) (sR : HttpResponse (List ServiceEntry))
        (cJ : CompanyProfile) (sJ : List ServiceEntry),
      c = .resolve cR → s = .resolve sR →
      cR.body = .parses cJ → sR.body = .parses sJ →
      (load c s st).company = some cJ ∧ (load c s st).services = sJ) := by
  refine ⟨loadTry_error_iff c s, fun m h => load_of_loadTry_error c s st m h, ?_⟩
  rintro cR sR cJ sJ rfl rfl hc hs
  exact load_of_loadTry_ok _ _ st cJ sJ (loadTry_resolve_parses cR sR cJ sJ hc hs)

/-- C8: whenever either GET fails by network rejection or malformed JSON,
the committed state is exactly the fallback constants: company named
"SPEED OF MASTRY" with 3 stats and 2 awards, and 4 services each carrying
exactly 3 bullets. -/
theorem load_failure_commits_exact_fallback
    (c : FetchOutcome CompanyProfile) (s : FetchOutcome (List ServiceEntry))
    (st : AppState) (h : c.failsJson = true ∨ s.failsJson = true) :
    (load c s st).company = some fallbackCompany ∧
    (load c s st).services = fallbackServices ∧
    fallbackCompany.name = "SPEED OF MASTRY" ∧
    fallbackCompany.stats.length = 3 ∧
    fallbackCompany.awards.length = 2 ∧
    fallbackServices.length = 4 ∧
    (∀ svc ∈ fallbackServices, svc.bullets.length = 3) := by
  obtain ⟨m, hm⟩ := (loadTry_error_iff c s).mpr h
  obtain ⟨h1, h2⟩ := load_of_loadTry_error c s st m hm
  refine ⟨h1, h2, rfl, rfl, rfl, rfl, ?_⟩
  intro svc hsvc
  fin_cases hsvc <;> rfl

/-- Witness for C8 at a concrete failing input: the services GET resolves
with status 200 but a malformed body, while the company GET resolves and
parses. -/
theorem load_failure_commits_exact_fallback_witness :
    (load (.resolve ⟨200, .parses fallbackCompany⟩)
        (.resolve ⟨200, .malformed "Unexpected token < in JSON"⟩)
        initState).company = some fallbackCompany ∧
    (load (.resolve ⟨200, .parses fallbackCompany⟩)
        (.resolve ⟨200, .malformed "Unexpected token < in JSON"⟩)
        initState).services = fallbackServices ∧
    fallbackCompany.name = "SPEED OF MASTRY" ∧
    fallbackCompany.stats.length = 3 ∧
    fallbackCompany.awards.length = 2 ∧
    fallbackServices.length = 4 ∧
    (∀ svc ∈ fallbackServices, svc.bullets.length = 3) :=
  load_failure_commits_exact_fallback
    (.resolve ⟨200, .parses fallbackCompany⟩)
    (.resolve ⟨200, .malformed "Unexpected token < in JSON"⟩)
    initState (Or.inr rfl)

/-! ## Helper lemmas about the lead submission flow -/

/-- Effect of a submit whose POST rejects at the network level. -/
theorem submitLead_reject (m : String) (st : AppState) :
    submitLead (.reject m) st =
      { st with leadStatus := { state := .error, message := m } } := by
  simp [submitLead, submitCommits, applyCommit]

/-- Effect of a submit whose POST resolves with a non-success status. -/
theorem submitLead_not_ok (r : HttpResponse Json) (st : AppState)
    (h : r.ok = false) :
    submitLead (.resolve r) st =
      { st with leadStatus :=
          { state := .error, message := "Failed to submit. Please try again." } } := by
  simp [submitLead, submitCommits, applyCommit, h]

/-- Effect of a submit whose POST resolves with a success status but a body
that fails to parse as JSON. -/
theorem submitLead_ok_malformed (r : HttpResponse Json) (st : AppState)
    (pm : String) (hok : r.ok = true) (hm : r.body = .malformed pm) :
    submitLead (.resolve r) st =
      { st with leadStatus := { state := .error, message := pm } } := by
  simp [submitLead, submitCommits, applyCommit, hok, HttpResponse.json, hm]

/-- Effect of a submit whose POST resolves with a success status and a body
that parses as JSON. -/
theorem submitLead_ok_parses (r : HttpResponse Json) (st : AppState)
    (j : Json) (hok : r.ok = true) (hb : r.body = .parses j) :
    submitLead (.resolve r) st =
      { st with
          lead := emptyLead
          leadStatus :=
            { state := .success, message := "Thank you! We will reach out shortly." } } := by
  simp [submitLead, submitCommits, applyCommit, hok, HttpResponse.json, hb]

/-- C2: a POST that resolves with an HTTP success status and a body that
parses as JSON puts the status at success with the fixed confirmation
message and resets the LeadRecord to all-empty fields; the parsed body is
not used to populate any state (the final state does not depend on it). -/
theorem submit_ok_parse_success (st : AppState) (r : HttpResponse Json)
    (j : Json) (hok : r.ok = true) (hbody : r.body = .parses j) :
    submitLead (.resolve r) st =
      { st with
          lead := { name := "", email := "", company := "", message := "", country := "" }
          leadStatus :=
            { state := .success, message := "Thank you! We will reach out shortly." } } ∧
    (∀ j' : Json,
      submitLead (.resolve { r with body := .parses j' }) st =
        submitLead (.resolve r) st) := by
  have h1 := submitLead_ok_parses r st j hok hbody
  refine ⟨h1, fun j' => ?_⟩
  have hok' : ({ r with body := .parses j' } : HttpResponse Json).ok = true := hok
  rw [submitLead_ok_parses { r with body := .parses j' } st j' hok' rfl, h1]

/-- Witness for C2: success status 200 with the body parsing to the empty
JSON object, from a state holding a fully populated LeadRecord. -/
theorem submit_ok_parse_success_witness :
    submitLead (.resolve ⟨200, .parses (Json.obj [])⟩)
        { initState with
            lead :=
              { name := "Jane", email := "jane@acme.io", company := "Acme"
                message := "Build a platform", country := "Saudi Arabia" } } =
      { initState with
          lead := { name := "", email := "", company := "", message := "", country := "" }
          leadStatus :=
            { state := .success, message := "Thank you! We will reach out shortly." } } :=
  (submit_ok_parse_success
    { initState with
        lead :=
          { name := "Jane", email := "jane@acme.io", company := "Acme"
            message := "Build a platform", country := "Saudi Arabia" } }
    ⟨200, .parses (Json.obj [])⟩ (Json.obj []) rfl rfl).1

/-- C3: a POST that resolves with a non-success status puts the status at
error with the fixed message, the LeadRecord stays exactly as it was at
submit time, and the response body is never inspected (the final state is
the same for every body). -/
theorem submit_not_ok_error (st : AppState) (r : HttpResponse Json)
    (hok : r.ok = false) :
    submitLead (.resolve r) st =
      { st with leadStatus :=
          { state := .error, message := "Failed to submit. Please try again." } } ∧
    (submitLead (.resolve r) st).lead = st.lead ∧
    (∀ b : JsonBody Json,
      submitLead (.resolve { r with body := b }) st =
        submitLead (.resolve r) st) := by
  have h1 := submitLead_not_ok r st hok
  refine ⟨h1, by rw [h1], fun b => ?_⟩
  have hok' : ({ r with body := b } : HttpResponse Json).ok = false := hok
  rw [submitLead_not_ok { r with body := b } st hok', h1]

/-- Witness for C3: status 500 whose body even parses as JSON, from a state
holding a populated LeadRecord. -/
theorem submit_not_ok_error_witness :
    submitLead (.resolve ⟨500, .parses (Json.str "server error detail")⟩)
        { initState with
            lead :=
              { name := "Jane", email := "jane@acme.io", company := "Acme"
                message := "Build a platform", country := "Saudi Arabia" } } =
      { { initState with
            lead :=
              { name := "Jane", email := "jane@acme.io", company := "Acme"
                message := "Build a platform", country := "Saudi Arabia" } } with
          leadStatus :=
            { state := .error, message := "Failed to submit. Please try again." } } :=
  (submit_not_ok_error
    { initState with
        lead :=
          { name := "Jane", email := "jane@acme.io", company := "Acme"
            message := "Build a platform", country := "Saudi Arabia" } }
    ⟨500, .parses (Json.str "server error detail")⟩ rfl).1

/-- C6: a POST that rejects at the network level, or that resolves with a
success status but a body failing to parse as JSON, puts the status at
error carrying exactly that failure own message text (a parse failure is
only ever raised after the ok check, since `res.json()` runs only then). -/
theorem submit_failure_uses_failure_message (st : AppState) :
    (∀ m, submitLead (.reject m) st =
      { st with leadStatus := { state := .error, message := m } }) ∧
    (∀ (r : HttpResponse Json) (pm : String), r.ok = true → r.body = .malformed pm →
      submitLead (.resolve r) st =
        { st with leadStatus := { state := .error, message := pm } }) :=
  ⟨fun m => submitLead_reject m st,
   fun r pm hok hm => submitLead_ok_malformed r st pm hok hm⟩

/-- C10: an HTTP success status whose body fails to parse yields the error
status carrying the parse failure message and leaves the LeadRecord
untouched; and reaching the success status requires both an ok status and a
parseable body, so an ok status alone never produces success or a reset. -/
theorem submit_ok_malformed_is_error_and_success_needs_both
    (st : AppState) (r : HttpResponse Json) (pm : String)
    (hok : r.ok = true) (hm : r.body = .malformed pm) :
    submitLead (.resolve r) st =
      { st with leadStatus := { state := .error, message := pm } } ∧
    (submitLead (.resolve r) st).lead = st.lead ∧
    (∀ (res : FetchOutcome Json) (st0 : AppState),
      (submitLead res st0).leadStatus.state = SubmState.success →
      ∃ (r0 : HttpResponse Json) (j : Json),
        res = .resolve r0 ∧ r0.ok = true ∧ r0.body = .parses j) := by
  have h1 := submitLead_ok_malformed r st pm hok hm
  refine ⟨h1, by rw [h1], ?_⟩
  intro res st0 hsucc
  cases res with
  | reject m =>
    rw [submitLead_reject m st0] at hsucc
    exact absurd hsucc (by simp)
  | resolve r0 =>
    cases hok0 : r0.ok with
    | false =>
      rw [submitLead_not_ok r0 st0 hok0] at hsucc
      exact absurd hsucc (by simp)
    | true =>
      cases hb : r0.body with
      | malformed m0 =>
        rw [submitLead_ok_malformed r0 st0 m0 hok0 hb] at hsucc
        exact absurd hsucc (by simp)
      | parses j => exact ⟨r0, j, rfl, hok0, hb⟩

/-- Witness for C10: status 204 (a success status) with a malformed body,
from a state holding a populated LeadRecord. -/
theorem submit_ok_malformed_witness :
    submitLead (.resolve ⟨204, .malformed "Unexpected end of JSON input"⟩)
        { initState with lead := { emptyLead with name := "Jane" } } =
      { { initState with lead := { emptyLead with name := "Jane" } } with
          leadStatus :=
            { state := .error, message := "Unexpected end of JSON input" } } :=
  (submit_ok_malformed_is_error_and_success_needs_both
    { initState with lead := { emptyLead with name := "Jane" } }
    ⟨204, .malformed "Unexpected end of JSON input"⟩
    "Unexpected end of JSON input" rfl rfl).1

/-- C9: every submit first commits the submitting status with an empty
message — the first state-setting call, made before the POST outcome is
known, for every prior status — and the rest of the submit is the remaining
commits applied to that intermediate state; moreover from any prior state a
POST with ok status and parseable body reaches success, so a resubmit from
a terminal state passes through submitting again. -/
theorem submit_enters_submitting_first (res : FetchOutcome Json) (st : AppState) :
    (submitCommits res).head? =
      some (Commit.setLeadStatus { state := .submitting, message := "" }) ∧
    (applyCommit st (Commit.setLeadStatus { state := .submitting, message := "" })).leadStatus =
      { state := .submitting, message := "" } ∧
    submitLead res st =
      ((submitCommits res).tail).foldl applyCommit
        { st with leadStatus := { state := .submitting, message := "" } } ∧
    (∀ (r : HttpResponse Json) (j : Json), r.ok = true → r.body = .parses j →
      (submitLead (.resolve r) st).leadStatus.state = SubmState.success) := by
  refine ⟨rfl, rfl, rfl, fun r j hok hb => ?_⟩
  rw [submitLead_ok_parses r st j hok hb]

/-- C5: the LeadRecord reset is the only `setLead` commit a submit ever
makes, it resets to the all-empty record, and at the point it is applied the
status has already transitioned to success; consequently the final
LeadRecord is the empty record when the final status is success and exactly
the submit-time record otherwise. -/
theorem submit_reset_only_after_success (res : FetchOutcome Json) (st : AppState) :
    (∀ i l, (submitCommits res)[i]? = some (Commit.setLead l) →
      l = emptyLead ∧
      (((submitCommits res).take i).foldl applyCommit st).leadStatus.state =
        SubmState.success) ∧
    ((submitLead res st).leadStatus.state = SubmState.success →
      (submitLead res st).lead = emptyLead) ∧
    ((submitLead res st).leadStatus.state ≠ SubmState.success →
      (submitLead res st).lead = st.lead) := by
  cases res with
  | reject m =>
    rw [submitLead_reject m st]
    refine ⟨?_, by simp, by simp⟩
    intro i l h
    rcases i with _ | _ | i <;> simp [submitCommits] at h
  | resolve r =>
    cases hok : r.ok with
    | false =>
      rw [submitLead_not_ok r st hok]
      refine ⟨?_, by simp, by simp⟩
      intro i l h
      rcases i with _ | _ | i <;> simp [submitCommits, hok] at h
    | true =>
      cases hb : r.body with
      | malformed pm =>
        rw [submitLead_ok_malformed r st pm hok hb]
        refine ⟨?_, by simp, by simp⟩
        intro i l h
        rcases i with _ | _ | i <;>
          simp [submitCommits, hok, HttpResponse.json, hb] at h
      | parses j =>
        rw [submitLead_ok_parses r st j hok hb]
        refine ⟨?_, by simp, by simp⟩
        intro i l h
        rcases i with _ | _ | _ | i
        · simp [submitCommits, hok, HttpResponse.json, hb] at h
        · simp [submitCommits, hok, HttpResponse.json, hb] at h
        · simp [submitCommits, hok, HttpResponse.json, hb] at h
          simp [submitCommits, hok, HttpResponse.json, hb, applyCommit, h]
        · simp [submitCommits, hok, HttpResponse.json, hb] at h

/-! ## Helper lemmas about the page session and the loading flag -/

/-- No state-setting call of the submit flow touches the `loading` cell. -/
theorem applyCommit_loading (st : AppState) (cm : Commit) :
    (applyCommit st cm).loading = st.loading := by
  cases cm <;> rfl

/-- Folding submit commits never touches the `loading` cell. -/
theorem foldl_applyCommit_loading (cms : List Commit) (st : AppState) :
    (cms.foldl applyCommit st).loading = st.loading := by
  induction cms generalizing st with
  | nil => rfl
  | cons cm cms ih => rw [List.foldl_cons, ih, applyCommit_loading]

/-- `load` always leaves the `loading` cell false (the `finally` block). -/
theorem load_loading (c : FetchOutcome CompanyProfile)
    (s : FetchOutcome (List ServiceEntry)) (st : AppState) :
    (load c s st).loading = false := by
  cases h : loadTry c s <;> simp [load, h]

/-- Any session event other than the load resolution preserves `loading`. -/
theorem stepEvent_loading_of_not_loadDone (st : AppState) (e : Event)
    (h : e.isLoadDone = false) : (stepEvent st e).loading = st.loading := by
  cases e with
  | loadDone c s => exact absurd h (by simp [Event.isLoadDone])
  | submitDone res => exact foldl_applyCommit_loading _ st
  | edit l => rfl

/-- Folding loadDone-free events preserves `loading`. -/
theorem foldl_stepEvent_loading (es : List Event) (st : AppState)
    (h : ∀ e ∈ es, e.isLoadDone = false) :
    (es.foldl stepEvent st).loading = st.loading := by
  induction es generalizing st with
  | nil => rfl
  | cons e es ih =>
    rw [List.foldl_cons, ih _ (fun x hx => h x (List.mem_cons_of_mem e hx)),
      stepEvent_loading_of_not_loadDone st e (h e (List.mem_cons_self e es))]

/-- C7: in a page session whose events before the single load resolution are
not load resolutions, `loading` is true at initialization and at every
prefix before the load resolves, becomes false the moment the combined load
attempt resolves (success or fallback alike), and stays false through any
further loadDone-free events of the session. -/
theorem loading_true_until_single_load_resolution
    (pre : List Event) (c : FetchOutcome CompanyProfile)
    (s : FetchOutcome (List ServiceEntry))
    (hpre : ∀ e ∈ pre, e.isLoadDone = false) :
    initState.loading = true ∧
    (∀ p, p <+: pre → (runSession p).loading = true) ∧
    (runSession (pre ++ [Event.loadDone c s])).loading = false ∧
    (∀ post, (∀ e ∈ post, e.isLoadDone = false) →
      (runSession (pre ++ Event.loadDone c s :: post)).loading = false) := by
  refine ⟨rfl, ?_, ?_, ?_⟩
  · intro p hp
    exact foldl_stepEvent_loading p initState fun e he => hpre e (hp.subset he)
  · rw [runSession, List.foldl_append]
    exact load_loading c s _
  · intro post hpost
    rw [runSession, List.foldl_append, List.foldl_cons]
    rw [foldl_stepEvent_loading post _ hpost]
    exact load_loading c s _

/-- Witness for C7 at a concrete session: one pre-load form edit, a load
that rejects on both GETs, then one failing submit after the load. -/
theorem loading_true_until_single_load_resolution_witness :
    (runSession
      ([Event.edit { emptyLead with name := "Jane" }] ++
        Event.loadDone (.reject "network down") (.reject "network down") ::
          [Event.submitDone (.reject "network down")])).loading = false :=
  (loading_true_until_single_load_resolution
    [Event.edit { emptyLead with name := "Jane" }]
    (.reject "network down") (.reject "network down")
    (by intro e he; rw [List.mem_singleton] at he; subst he; rfl)).2.2.2
    [Event.submitDone (.reject "network down")]
    (by intro e he; rw [List.mem_singleton] at he; subst he; rfl)
